import Mathlib

/-!
Verification of the lexedata cell parser (src/lexedata/importer/cellparser.py)
and the cognate-table consistency validator
(src/lexedata/report/extended_cldf_validate.py).

Strings are modelled as lists of characters (`Str`).  The regular expressions
of the source are embedded by their operational behaviour, documented at each
definition; the dot of the Python regexes matches any character except a
newline, and every concrete input evaluated in this development is free of
newline characters.
-/

namespace Lexedata

/-- A Python string, modelled as its list of characters. -/
abbrev Str := List Char

/-- Indexing with a null-character default; an index past the end never
equals a real delimiter character, mirroring a failed regex character test. -/
def charAt (s : Str) (i : Nat) : Char := s.getD i '\x00'

/-- The Python regex dot: any character except a newline. -/
def dotChar (c : Char) : Bool := c != '\n'

/-- All characters of s in positions [lo, hi) are acceptable for the regex
dot, i.e. none is a newline. -/
def noNewline (s : Str) (lo hi : Nat) : Bool := ((s.take hi).drop lo).all dotChar

/-- Python `\s` (ASCII range): space, tab, newline, carriage return,
vertical tab, form feed. -/
def isSpaceChar (c : Char) : Bool :=
  c == ' ' || c == '\t' || c == '\n' || c == '\r' || c == '\x0b' || c == '\x0c'

/-- First position at or after i that does not hold a `\s` character
(the end position of a greedy `\s*`). -/
def skipSpaces (s : Str) (i : Nat) : Nat := i + ((s.drop i).takeWhile isSpaceChar).length

/-- `CellParser.bracket_checker` (cellparser.py lines 72-77): an empty string
counts as unbalanced (`if not string: return False`), otherwise the counts of
the opening and closing character must agree. -/
def bracket_checker (opening closing : Char) (s : Str) : Bool :=
  if s = [] then false else s.count opening == s.count closing

/-- The characters of `illegal_symbols_description`, regex `[</[{]`. -/
def illegalDescChar (c : Char) : Bool :=
  c == '<' || c == '/' || c == '[' || c == '{'

/-- Error values for the exception classes raised by the cell parser
(lexedata.importer.exceptions): FormCellError with its kind, SeparatorCellError
and CellParsingError. -/
inductive FormErr where
  | description (candidate : Str)
  | incomplete (ele : Str)
  | emptyExcel
  | emptyForm (ele : Str)
  | separator (s : Str)
  | cellParsing
deriving Repr, DecidableEq

/-! ## Variant splitting (`variants_scanner`, `variants_separator`) -/

/-- The keys of the `closers` dict in `variants_scanner`: `<`, `[`, `/`. -/
def isOpener (c : Char) : Bool := c == '<' || c == '[' || c == '/'

/-- The values of the `closers` dict: `>`, `]`, `/`. -/
def isCloserVal (c : Char) : Bool := c == '>' || c == ']' || c == '/'

/-- `closers[starter]` of `variants_scanner`; the scanner only consults it
while a bracket opened by one of `<`, `[`, `/` is pending. -/
def closersOf : Char → Char
  | '<' => '>'
  | '[' => ']'
  | '/' => '/'
  | _ => '\x00'

/-- The loop state of `variants_scanner`: whether a bracket is open, which
opener started it (the Python code keeps an empty string when closed, modelled
by a null character), and the collected output. -/
structure ScanState where
  isOpen : Bool
  starter : Char
  collector : Str
deriving Repr, DecidableEq

/-- One character step of `variants_scanner` (cellparser.py lines 245-264),
with the source's branch order: opener while closed; the marker symbol
(inserting closer + symbol + opener when a bracket is open); a closing
character; any character while open; anything else is dropped. -/
def scanStep (symbol : Char) (st : ScanState) (c : Char) : ScanState :=
  if isOpener c && !st.isOpen then
    { isOpen := true, starter := c, collector := st.collector ++ [c] }
  else if c == symbol then
    if st.isOpen then
      { st with collector := st.collector ++ [closersOf st.starter, c, st.starter] }
    else
      { st with collector := st.collector ++ [c] }
  else if isCloserVal c then
    { isOpen := false, starter := '\x00', collector := st.collector ++ [c] }
  else if st.isOpen then
    { st with collector := st.collector ++ [c] }
  else st

/-- `CellParserLexical.variants_scanner` (cellparser.py lines 237-266). -/
def variants_scanner (s : Str) (symbol : Char) : Str :=
  (s.foldl (scanStep symbol) ⟨false, '\x00', []⟩).collector

/-- Python `string.split(sep)` for a one-character separator: always returns
at least one (possibly empty) piece. -/
def splitOnChar (c : Char) : Str → List Str
  | [] => [[]]
  | ch :: rest =>
    let r := splitOnChar c rest
    if ch == c then [] :: r
    else (ch :: r.headD []) :: r.tail

/-- The `while " " in text: text = text.replace(" ", "")` loop of
`variants_separator`: `str.replace` removes every space in one pass, so the
loop body runs at most once and the result is the space-free string. -/
def removeSpaces (s : Str) : Str := s.filter (fun c => c != ' ')

/-- `CellParserLexical.variants_separator` (cellparser.py lines 268-296).
A field containing `;` (the `illegal_symbols_transcription` class) raises
SeparatorCellError; otherwise spaces are deleted, and if `~` (or else `%`)
occurs in the original field the scanner output is split on that marker, the
first piece is returned and the remaining pieces are appended to the variants
list prefixed with the marker.  Returns the possibly extended variants list
alongside the primary value. -/
def variants_separator (variants_list : List Str) (string : Str) :
    Except FormErr (Str × List Str) :=
  if string.any (fun c => c == ';') then Except.error (FormErr.separator string)
  else
    let text := removeSpaces string
    if string.any (fun c => c == '~') then
      let values := splitOnChar '~' (variants_scanner text '~')
      Except.ok (values.headD [], variants_list ++ (values.tail.map (fun e => '~' :: e)))
    else if string.any (fun c => c == '%') then
      let values := splitOnChar '%' (variants_scanner text '%')
      Except.ok (values.headD [], variants_list ++ (values.tail.map (fun e => '%' :: e)))
    else Except.ok (string, variants_list)

/-! ## The form patterns (phonemic, phonetic, orthographic, source)

Each pattern has the shape
`(?:^|(.*?(?<=[^&])))( span (reps)* )(.*)$` and is used with `pat.match`
followed by `pat.sub(r"\1\3", ele)`: the earliest viable start position is
found (position 0 via the `^` alternative, otherwise the lazy prefix stops at
the first start whose preceding character is not the escape `&`), the span is
matched with a lazy body (first closing delimiter), repetitions
`\s*[~%]\s* span` are consumed greedily, and the substitution keeps prefix
and suffix, deleting the matched group. -/

/-- End position of one `<.+?>`-style span starting at p: the first closer at
distance at least two (the lazy dot-body swallows a closer at distance one),
with a newline-free body. -/
def spanEnd (opener closer : Char) (s : Str) (p : Nat) : Option Nat :=
  if charAt s p == opener then
    match ((List.range s.length).filter
        (fun q => p + 2 <= q && charAt s q == closer)).head? with
    | some q => if noNewline s (p + 1) q then some q else none
    | none => none
  else none

/-- End position of the leading phonemic span `/[^/]+?(?<=[^&])/` starting at
p: the body cannot contain a slash, so the closer is the first slash after
p + 1; it must lie at distance at least two and must not follow `&`
(`[^/]` also matches a newline, so no newline condition applies). -/
def spanEndPhon (s : Str) (p : Nat) : Option Nat :=
  if charAt s p == '/' then
    match ((List.range s.length).filter
        (fun q => p + 1 <= q && charAt s q == '/')).head? with
    | some q => if p + 2 <= q && charAt s (q - 1) != '&' then some q else none
    | none => none
  else none

/-- End position of a repeated phonemic span `/[^/]+?/` (no look-behind on the
closer inside the repetition group). -/
def spanEndPhonRep (s : Str) (p : Nat) : Option Nat :=
  if charAt s p == '/' then
    match ((List.range s.length).filter
        (fun q => p + 1 <= q && charAt s q == '/')).head? with
    | some q => if p + 2 <= q then some q else none
    | none => none
  else none

/-- Greedy repetition `(?:\s*[~%]\s* span)*` starting at end position e:
keep extending while a marker and a further span follow. -/
def repsEnd (spanFn : Str → Nat → Option Nat) (s : Str) : Nat → Nat → Nat
  | 0, e => e
  | fuel + 1, e =>
    let i := skipSpaces s e
    if charAt s i == '~' || charAt s i == '%' then
      match spanFn s (skipSpaces s (i + 1)) with
      | some q => repsEnd spanFn s fuel (q + 1)
      | none => e
    else e

/-- Start positions admitted by `(?:^|(.*?(?<=[^&])))`: position 0, or any
position whose preceding character is not `&` and whose prefix is
newline-free (the lazy dot-prefix). -/
def prefixOk (s : Str) (p : Nat) : Bool :=
  p == 0 || (charAt s (p - 1) != '&' && noNewline s 0 p)

/-- Apply one form pattern to the working string: locate the match as
described above and return the matched group together with the string after
`pat.sub(r"\1\3", ele)` (prefix ++ suffix; an unmatched group 1 substitutes
the empty string). -/
def patApply (spanFn : Str → Nat → Option Nat) (repFn : Option (Str → Nat → Option Nat))
    (s : Str) : Option (Str × Str) :=
  match ((List.range s.length).filter
      (fun p => prefixOk s p && (spanFn s p).isSome)).head? with
  | none => none
  | some p =>
    match spanFn s p with
    | none => none
    | some q =>
      let e := match repFn with
        | some rf => repsEnd rf s (s.length + 1) (q + 1)
        | none => q + 1
      some ((s.take e).drop p, s.take p ++ s.drop e)

/-- `phonemic_pattern` (cellparser.py lines 15-22). -/
def phonemicApply (s : Str) : Option (Str × Str) :=
  patApply spanEndPhon (some spanEndPhonRep) s

/-- `phonetic_pattern` (cellparser.py line 23). -/
def phoneticApply (s : Str) : Option (Str × Str) :=
  patApply (spanEnd '[' ']') (some (spanEnd '[' ']')) s

/-- `ortho_pattern` (cellparser.py line 24). -/
def orthoApply (s : Str) : Option (Str × Str) :=
  patApply (spanEnd '<' '>') (some (spanEnd '<' '>')) s

/-- `source_pattern` (cellparser.py line 26): one source per form, no
repetition group. -/
def sourceApply (s : Str) : Option (Str × Str) :=
  patApply (spanEnd '{' '}') none s

/-! ## The description pattern and comment escapes -/

/-- `description_pattern` = `^(.*?)(\(.+\))(.*)$`: the lazy prefix stops at
the first `(` that is followed, at distance at least two, by some `)`; the
greedy body extends to the last such `)`.  Returns the start of the matched
group and the position of its closing parenthesis. -/
def descrMatch (s : Str) : Option (Nat × Nat) :=
  match ((List.range s.length).filter (fun p =>
      charAt s p == '(' && noNewline s 0 p &&
      !((List.range s.length).filter (fun r =>
          p + 2 <= r && charAt s r == ')' && noNewline s (p + 1) r)).isEmpty)).head? with
  | none => none
  | some p =>
    (((List.range s.length).filter (fun r =>
        p + 2 <= r && charAt s r == ')' && noNewline s (p + 1) r)).getLast?).map
      (fun r => (p, r))

/-- One match of `comment_escapes` = `&[</\[{].+?(?:\s|.$)` starting exactly
at position i: an ampersand, a delimiter-opening character, a non-empty lazy
body, then the first position closing the match with a whitespace character
or with the final character of the string.  Returns the exclusive end. -/
def escMatchAt (s : Str) (i : Nat) : Option Nat :=
  if charAt s i == '&' && illegalDescChar (charAt s (i + 1)) && i + 1 < s.length then
    ((List.range (s.length + 1)).filter (fun m =>
        i + 4 <= m && m <= s.length && noNewline s (i + 2) (m - 1) &&
        (isSpaceChar (charAt s (m - 1)) ||
          (m == s.length && dotChar (charAt s (m - 1)))))).head?
  else none

/-- `comment_escapes.findall`: left-to-right non-overlapping matches. -/
def escFindall : Nat → Str → Nat → List Str
  | 0, _, _ => []
  | fuel + 1, s, i =>
    if s.length <= i then []
    else match escMatchAt s i with
      | some m => ((s.take m).drop i) :: escFindall fuel s m
      | none => escFindall fuel s (i + 1)

/-- Python `str.replace(pat, "")` for a non-empty pattern: remove
left-to-right non-overlapping occurrences. -/
def replaceAll : Nat → Str → Str → Str
  | 0, s, _ => s
  | fuel + 1, s, pat =>
    match s with
    | [] => []
    | c :: rest =>
      if pat != [] && pat.isPrefixOf s then replaceAll fuel (s.drop pat.length) pat
      else c :: replaceAll fuel rest pat

/-- The `while self.description_pattern.match(ele)` loop of
`CellParserLexical.parse_form` (cellparser.py lines 193-212): each matched
parenthesised candidate is appended to the accumulated description and
removed from the working string; a candidate containing a transcription
symbol is admitted only if removing every `comment_escapes` match leaves it
clean, else FormCellError("description") is raised with the de-escaped
candidate. -/
def descriptionLoop : Nat → Str → Str → Except FormErr (Str × Str)
  | 0, acc, ele => Except.ok (acc, ele)
  | fuel + 1, acc, ele =>
    match descrMatch ele with
    | none => Except.ok (acc, ele)
    | some (p, r) =>
      let candidate := (ele.take (r + 1)).drop p
      let rest := ele.take p ++ ele.drop (r + 1)
      if !(candidate.any illegalDescChar) then
        descriptionLoop fuel (acc ++ candidate) rest
      else
        let deescaped := (escFindall (candidate.length + 1) candidate 0).foldl
          (fun cur e => replaceAll cur.length cur e) candidate
        if !(deescaped.any illegalDescChar) then
          descriptionLoop fuel (acc ++ candidate) rest
        else Except.error (FormErr.description deescaped)

/-! ## parse_form and parsecell -/

/-- Python `str.strip(" ")`: spaces (only) removed from both ends. -/
def stripSpacesOnly (s : Str) : Str :=
  ((s.dropWhile (fun c => c == ' ')).reverse.dropWhile (fun c => c == ' ')).reverse

/-- The final description enclosure of `CellParserLexical.parse_form`
(cellparser.py lines 230-232): wrap unless `bracket_checker` accepts the
accumulated description — so an unbalanced or empty description gets one
pair of parentheses. -/
def encloseDescription (d : Str) : Str :=
  if bracket_checker '(' ')' d then d else '(' :: (d ++ [')'])

/-- The comment enclosure of the duplicate `CellParserLD.parse_form`
(cellparser.py lines 489-491): wrap a non-empty comment unless it both
starts with `(` and ends with `)`; an empty comment stays empty. -/
def encloseDescriptionLD (d : Str) : Str :=
  if d != [] && !(d.headD '\x00' == '(' && d.getLastD '\x00' == ')') then
    '(' :: (d ++ [')'])
  else d

/-- The 5-field result of `parse_form`: matched groups (with their
delimiters, exactly as `mymatch.group(2)` returns them) or None. -/
structure RawForm where
  phonemic : Option Str
  phonetic : Option Str
  orthographic : Option Str
  description : Str
  source : Option Str
deriving Repr, DecidableEq

/-- `CellParserLexical.parse_form` (cellparser.py lines 178-235): apply the
four form patterns in order (each at most once, deleting its match), collect
parenthesised descriptions, fold clean leftover text into the description or
raise IncompleteParsing, then enclose the description. -/
def parse_form (formele : Str) : Except FormErr RawForm :=
  let st1 := match phonemicApply formele with
    | some gr => (some gr.1, gr.2)
    | none => (none, formele)
  let st2 := match phoneticApply st1.2 with
    | some gr => (some gr.1, gr.2)
    | none => (none, st1.2)
  let st3 := match orthoApply st2.2 with
    | some gr => (some gr.1, gr.2)
    | none => (none, st2.2)
  let st4 := match sourceApply st3.2 with
    | some gr => (some gr.1, gr.2)
    | none => (none, st3.2)
  match descriptionLoop (st4.2.length + 1) [] st4.2 with
  | Except.error e => Except.error e
  | Except.ok dr =>
    let ele := stripSpacesOnly dr.2
    if ele != [] then
      if 1 <= ele.length && !(ele.any illegalDescChar) then
        Except.ok ⟨st1.1, st2.1, st3.1, encloseDescription (dr.1 ++ ele), st4.1⟩
      else Except.error (FormErr.incomplete ele)
    else Except.ok ⟨st1.1, st2.1, st3.1, encloseDescription dr.1, st4.1⟩

/-- The 6-tuple yielded for one form-string: phonemic, phonetic,
orthographic, description, source, joined variants (all None for the literal
placeholder `...`). -/
structure ParsedForm where
  phonemic : Option Str
  phonetic : Option Str
  orthographic : Option Str
  description : Option Str
  source : Option Str
  variants : Option Str
deriving Repr, DecidableEq

/-- `CellParserLexical.parsecell` (cellparser.py lines 139-176): `...` short
circuits to the all-None record; otherwise parse_form runs, None fields
become empty strings, the variant separator is threaded through the three
transcription fields, an all-empty transcription raises Empty Excel Cell or
Empty Form Cell (depending on whether the form-string is spaces only), and a
non-empty description must pass `bracket_checker`. -/
def parsecell (ele : Str) : Except FormErr ParsedForm :=
  if ele = ['.', '.', '.'] then Except.ok ⟨none, none, none, none, none, none⟩
  else
    match parse_form ele with
    | Except.error e => Except.error e
    | Except.ok rf =>
      let phonemic0 := rf.phonemic.getD []
      let phonetic0 := rf.phonetic.getD []
      let ortho0 := rf.orthographic.getD []
      let description := rf.description
      let source := rf.source.getD []
      match (if phonemic0 != [] then variants_separator [] phonemic0
             else Except.ok (phonemic0, [])) with
      | Except.error e => Except.error e
      | Except.ok pv =>
      match (if phonetic0 != [] then variants_separator pv.2 phonetic0
             else Except.ok (phonetic0, pv.2)) with
      | Except.error e => Except.error e
      | Except.ok tv =>
      match (if ortho0 != [] then variants_separator tv.2 ortho0
             else Except.ok (ortho0, tv.2)) with
      | Except.error e => Except.error e
      | Except.ok ov =>
        let variants := List.intercalate [','] ov.2
        if pv.1 = [] && tv.1 = [] && ov.1 = [] then
          if removeSpaces ele = [] then Except.error FormErr.emptyExcel
          else Except.error (FormErr.emptyForm ele)
        else if description != [] && !(bracket_checker '(' ')' description) then
          Except.error (FormErr.description description)
        else
          Except.ok ⟨some pv.1, some tv.1, some ov.1, some description,
            some source, some variants⟩

/-! ## Separating a cell into form-strings -/

/-- One attempted match of `separator_pattern`
`(?<=[}\)>/\]])\s*[,;]\s*(?=[</\[])` at position i: the preceding character
must close a transcription element, then any spaces, one of `,;`, any
spaces, looking ahead at a transcription opener.  Returns the exclusive end
(the position of the opener, which is not consumed). -/
def sepMatchAt (s : Str) (i : Nat) : Option Nat :=
  if i == 0 then none
  else if !(charAt s (i - 1) == '}' || charAt s (i - 1) == ')' ||
      charAt s (i - 1) == '>' || charAt s (i - 1) == '/' || charAt s (i - 1) == ']') then
    none
  else
    let j := skipSpaces s i
    if (charAt s j == ',' || charAt s j == ';') && j < s.length then
      let k := skipSpaces s (j + 1)
      if (charAt s k == '<' || charAt s k == '/' || charAt s k == '[') && k < s.length then
        some k
      else none
    else none

/-- Leftmost `separator_pattern` match at or after position lo. -/
def findSep (s : Str) (lo : Nat) : Option (Nat × Nat) :=
  match ((List.range s.length).filter
      (fun i => lo <= i && (sepMatchAt s i).isSome)).head? with
  | some i =>
    match sepMatchAt s i with
    | some e => some (i, e)
    | none => none
  | none => none

/-- `re.split(separator_pattern, values)`: pieces between consecutive
separator matches. -/
def splitSepGo : Nat → Str → Nat → List Str
  | 0, s, lo => [s.drop lo]
  | fuel + 1, s, lo =>
    match findSep s lo with
    | none => [s.drop lo]
    | some ie => ((s.take ie.1).drop lo) :: splitSepGo fuel s ie.2

/-- Python `str.strip()` with no argument: whitespace removed from both
ends. -/
def stripWs (s : Str) : Str :=
  ((s.dropWhile isSpaceChar).reverse.dropWhile isSpaceChar).reverse

/-- Python `str.rstrip(c)` for a single character: all trailing copies of c
removed. -/
def rstripChar (c : Char) (s : Str) : Str :=
  (s.reverse.dropWhile (fun x => x == c)).reverse

/-- Apply f to the last element of a list, as the assignment
`elements[-1] = ...` does. -/
def modifyLast (f : Str → Str) : List Str → List Str
  | [] => []
  | [x] => [f x]
  | x :: y :: rest => x :: modifyLast f (y :: rest)

/-- Modelled from the spec: `unicodedata.normalize("NFKC", values)` comes
from the Python standard library, outside this repository.  Section 6 of the
spec states that cell text is supplied to the core already normalized to
composed form, so on the core's domain the normalization is the identity;
every concrete cell evaluated in this development is an NFKC fixed point. -/
def nfkc (s : Str) : Str := s

/-- `CellParser.separate` (cellparser.py lines 60-68): NFKC-normalize, split
on the separator pattern, strip whitespace from every piece, and strip a
trailing line break, then trailing commas, then trailing semicolons from the
last piece. -/
def separate (values : Str) : List Str :=
  let values := nfkc values
  let elements := (splitSepGo (values.length + 1) values 0).map stripWs
  modifyLast (fun e => rstripChar ';' (rstripChar ',' (rstripChar '\n' e))) elements

/-! ## Stripping `#...#` spans (`ignore_pattern`) -/

/-- A viable pair of positions (k, j) for `ignore_pattern`
`^(.+)#.+?#(.*)$` on s: group 1 needs at least one (non-newline) character
before the `#` at k, the span body between k and j is non-empty and
newline-free, and the suffix after j may contain a newline only as its final
character (where `$` matches before a trailing newline). -/
def ignorePairOk (s : Str) (k j : Nat) : Bool :=
  1 <= k && k + 2 <= j && j < s.length &&
  charAt s k == '#' && charAt s j == '#' &&
  noNewline s 0 k && noNewline s (k + 1) j &&
  (s.drop (j + 1)).dropLast.all dotChar

/-- One `ignore_pattern.sub(r"\1\2", values)` step: the greedy group 1 picks
the largest viable k, the lazy span body picks the smallest viable j for that
k, and the substitution keeps everything outside `s[k..j]`.  None when the
pattern does not match. -/
def ignoreStep (s : Str) : Option Str :=
  match ((List.range s.length).filter (fun k =>
      !((List.range s.length).filter (fun j => ignorePairOk s k j)).isEmpty)).getLast? with
  | none => none
  | some k =>
    match ((List.range s.length).filter (fun j => ignorePairOk s k j)).head? with
    | some j => some (s.take k ++ s.drop (j + 1))
    | none => none

/-- The `while self.ignore_pattern.match(values)` loop of `CellParser.parse`
(cellparser.py lines 87-88), run with fuel: every step deletes at least
three characters, so `s.length` steps always reach the fixed point. -/
def stripIgnoreGo : Nat → Str → Str
  | 0, s => s
  | fuel + 1, s =>
    match ignoreStep s with
    | none => s
    | some s2 => stripIgnoreGo fuel s2

/-- All `#...#` spans removable by `ignore_pattern` deleted, repeatedly. -/
def stripIgnore (s : Str) : Str := stripIgnoreGo s.length s

/-! ## The cell parser orchestrator -/

/-- All six entries of the yielded record equal the empty string — the
`all(ele == "" for ele in element)` guard of `CellParser.parse` (a None
entry does not equal the empty string). -/
def allEmptyStr (f : ParsedForm) : Bool :=
  f.phonemic == some [] && f.phonetic == some [] && f.orthographic == some [] &&
  f.description == some [] && f.source == some [] && f.variants == some []

/-- `parse_value` plus the empty-record guard of the loop body of
`CellParser.parse` (cellparser.py lines 93-96): either a record to yield or
one of the raised errors (CellParsingError, FormCellError,
SeparatorCellError — every error the body can raise is caught by the except
clauses of lines 99-117). -/
def parse_value_checked (e : Str) : Except FormErr ParsedForm :=
  match parsecell e with
  | Except.error err => Except.error err
  | Except.ok f =>
    if allEmptyStr f then Except.error FormErr.cellParsing else Except.ok f

/-- The `for element in self.values` loop of `CellParser.parse`: yield each
successfully parsed record; a raised error is caught, logged and the loop
continues with the next form-string. -/
def parseElements (es : List Str) : List ParsedForm :=
  es.foldr (fun e acc =>
    match parse_value_checked e with
    | Except.ok f => f :: acc
    | Except.error _ => acc) []

/-- `CellParserLexical.parse` (via `CellParser.parse`, cellparser.py lines
84-117): strip `#...#` spans, separate into form-strings, parse each one and
collect the yielded records in order. -/
def parse (values : Str) : List ParsedForm :=
  parseElements (separate (stripIgnore values))

/-! ## The cognate-table consistency validator
(src/lexedata/report/extended_cldf_validate.py, `check_cognate_table`)

The collaborators outside the core are modelled as the spec's section 6
describes them: the cached FormTable is a lookup from form identifier to the
form's segment list, and each CognateTable row is a record of its logical
fields.  Presence of the `#segmentSlice` and `#alignment` columns is a pair
of flags (`c_sslice is not None`, truthiness of `c_alignment`). -/

namespace Validate

/-- One CognateTable row.  The segment-slice cell is the list of its
1-based inclusive ranges (empty for a null or empty cell, the falsy cases of
`if not judgement[c_sslice]`); the alignment cell is its list of symbols. -/
structure Judgement where
  form : String
  cognateset : String
  segmentSlice : List (Nat × Nat)
  alignment : List String
deriving Repr, DecidableEq

/-- Modelled from the spec: `lexedata.util.parse_segment_slices` is not in
the provided sources.  Per spec sections 4.5 and the glossary, a segment
slice is a union of 1-based inclusive ranges converted to 0-based indices
before checking: the range a:b yields the indices a-1, ..., b-1. -/
def parse_segment_slices (slices : List (Nat × Nat)) : List Nat :=
  (slices.map (fun ab => List.range' (ab.1 - 1) (ab.2 + 1 - ab.1))).flatten

/-- Python `max(l)`: None models the ValueError raised on an empty list. -/
def pyMax : List Nat → Option Nat :=
  List.foldl (fun acc x =>
    match acc with
    | none => some x
    | some m => some (Nat.max m x)) none

/-- Python exceptions that escape `check_cognate_table`: the IndexError from
`form_segments[i]` with an out-of-range i, and the ValueError from `max` of
an empty sequence. -/
inductive RowErr where
  | indexError
  | valueError
deriving Repr, DecidableEq

/-- `cognateset_alignment_lengths`: per cognate set, the recorded alignment
lengths (the source's set is only ever extended while empty, so it holds at
most one element). -/
abbrev LengthMap := List (String × List Nat)

/-- Reading `cognateset_alignment_lengths[judgement[c_cognateset]]`: a
DefaultDict yields the empty set for an absent key. -/
def lookupLengths (m : LengthMap) (k : String) : List Nat :=
  match m.find? (fun kv => kv.1 == k) with
  | some kv => kv.2
  | none => []

/-- `lengths.add(alignment_length)`: store the updated set for the key. -/
def setLengths (m : LengthMap) (k : String) (v : List Nat) : LengthMap :=
  match m with
  | [] => [(k, v)]
  | kv :: rest => if kv.1 == k then (k, v) :: rest else kv :: setLengths rest k v

/-- `" ".join(l)`. -/
def joinSpace : List String → String
  | [] => ""
  | [x] => x
  | x :: y :: rest => x ++ " " ++ joinSpace (y :: rest)

/-- Python `str.strip()` on the joined segment strings. -/
def pyStrip (s : String) : String := ⟨stripWs s.data⟩

/-- The `if c_alignment:` block of `check_cognate_table` (lines 143-172):
compare the raw alignment length with the recorded lengths of the cognate
set (recording it if the set is empty), then compare the gap-free
space-joined alignment with the space-joined included segments; an index of
`included` beyond the form's segments raises IndexError inside
`" ".join(form_segments[i] for i in included_segments)`. -/
def alignStage (forms : String → List String) (hasAlign : Bool) (j : Judgement)
    (included : List Nat) (m : LengthMap) (ok : Bool) :
    Except RowErr (LengthMap × Bool) :=
  if hasAlign then
    let form_segments := forms j.form
    let lengths := lookupLengths m j.cognateset
    let alignment_length := j.alignment.length
    let mok :=
      if lengths != [] && !(lengths.contains alignment_length) then (m, false)
      else if lengths = [] then (setLengths m j.cognateset [alignment_length], ok)
      else (m, ok)
    let without_gaps := joinSpace (j.alignment.filter (fun c => c != "-"))
    if included.all (fun i => i < form_segments.length) then
      let actual_segments := joinSpace (included.map (fun i => form_segments.getD i ""))
      if pyStrip without_gaps != pyStrip actual_segments then Except.ok (mok.1, false)
      else Except.ok mok
    else Except.error RowErr.indexError
  else Except.ok (m, ok)

/-- One iteration of the `for f, j, judgement in ...iterdicts` loop (lines
120-172), from the state (recorded lengths, all_judgements_okay).  With a
slice column: an empty slice is logged and the loop continues with the state
unchanged; otherwise the slice is parsed and `max(included) >= len(segments)`
clears the flag but does not skip the remaining checks.  Without a slice
column every segment is included. -/
def checkRow (forms : String → List String) (hasSlice hasAlign : Bool)
    (st : LengthMap × Bool) (j : Judgement) : Except RowErr (LengthMap × Bool) :=
  let form_segments := forms j.form
  if hasSlice then
    if j.segmentSlice = [] then Except.ok st
    else
      let included := parse_segment_slices j.segmentSlice
      match pyMax included with
      | none => Except.error RowErr.valueError
      | some mx =>
        let ok2 := if form_segments.length <= mx then false else st.2
        alignStage forms hasAlign j included st.1 ok2
  else alignStage forms hasAlign j (List.range form_segments.length) st.1 st.2

/-- `check_cognate_table` (lines 104-174) from the point where the columns
are known: with neither a slice nor an alignment column the table is
vacuously consistent; otherwise every row is checked in order and the final
`all_judgements_okay` flag is returned (an escaped Python exception is the
error case). -/
def check_cognate_table (forms : String → List String) (hasSlice hasAlign : Bool)
    (rows : List Judgement) : Except RowErr Bool :=
  if !hasSlice && !hasAlign then Except.ok true
  else (rows.foldlM (checkRow forms hasSlice hasAlign) ([], true)).map (fun st => st.2)

end Validate

end Lexedata



namespace Lexedata

/-! # Helper lemmas -/

/-- The head of a filtered list satisfies the filter predicate. -/
theorem filter_head?_prop (p : Nat → Bool) :
    ∀ (l : List Nat) (j : Nat), (l.filter p).head? = some j → p j = true := by
  intro l
  induction l with
  | nil => intro j h; simp at h
  | cons a t ih =>
    intro j h
    cases hp : p a with
    | false =>
      rw [List.filter_cons_of_neg (by simp [hp])] at h
      exact ih j h
    | true =>
      rw [List.filter_cons_of_pos hp] at h
      simp at h
      exact h ▸ hp

/-- One `ignore_pattern` substitution deletes at least the two `#` markers
and the non-empty span between them. -/
theorem ignoreStep_shrinks (s s2 : Str) (h : ignoreStep s = some s2) :
    s2.length + 3 ≤ s.length := by
  unfold ignoreStep at h
  split at h
  · exact absurd h (by simp)
  · rename_i k hk
    split at h
    · rename_i j hj
      have hpair : ignorePairOk s k j = true := filter_head?_prop _ _ j hj
      unfold ignorePairOk at hpair
      simp only [Bool.and_eq_true, decide_eq_true_eq] at hpair
      have h1 : 1 ≤ k := hpair.1.1.1.1.1.1.1
      have h2 : k + 2 ≤ j := hpair.1.1.1.1.1.1.2
      have h3 : j < s.length := hpair.1.1.1.1.1.2
      have h4 : s2 = s.take k ++ s.drop (j + 1) := (Option.some_inj.mp h).symm
      subst h4
      simp only [List.length_append, List.length_take, List.length_drop]
      omega
    · exact absurd h (by simp)

/-- With fuel at least the string length, the `while` loop over
`ignore_pattern` reaches a string the pattern no longer matches. -/
theorem stripIgnoreGo_fix : ∀ (fuel : Nat) (s : Str), s.length ≤ fuel →
    ignoreStep (stripIgnoreGo fuel s) = none := by
  intro fuel
  induction fuel with
  | zero =>
    intro s hs
    have h0 : s = [] := List.length_eq_zero.mp (Nat.le_zero.mp hs)
    subst h0
    rfl
  | succ n ih =>
    intro s hs
    cases h : ignoreStep s with
    | none => simp [stripIgnoreGo, h]
    | some s2 =>
      have hlen := ignoreStep_shrinks s s2 h
      have hfix : ignoreStep (stripIgnoreGo n s2) = none := ih s2 (by omega)
      simpa [stripIgnoreGo, h] using hfix

/-- Folding the yield-or-skip step over a list from an arbitrary
accumulator appends the accumulator to the parsed records. -/
theorem parseElements_foldr (pre : List Str) (x : List ParsedForm) :
    pre.foldr (fun e acc =>
      match parse_value_checked e with
      | Except.ok f => f :: acc
      | Except.error _ => acc) x = parseElements pre ++ x := by
  induction pre with
  | nil => simp [parseElements]
  | cons e t ih =>
    cases h : parse_value_checked e with
    | ok f => simp [parseElements, h, ih]
    | error err => simp [parseElements, h, ih]

end Lexedata

namespace Lexedata

/-- A row whose `all_judgements_okay` contribution starts false can only
leave it false through the alignment block. -/
theorem alignStage_false (forms : String → List String) (ha : Bool)
    (j : Validate.Judgement) (included : List Nat) (m m2 : Validate.LengthMap)
    (ok2 : Bool)
    (h : Validate.alignStage forms ha j included m false = Except.ok (m2, ok2)) :
    ok2 = false := by
  unfold Validate.alignStage at h
  split at h
  · dsimp only at h
    split_ifs at h <;> simp_all
  · simp_all

/-- `checkRow` started with a cleared flag keeps the flag cleared whenever
it returns normally. -/
theorem checkRow_false (forms : String → List String) (hs ha : Bool)
    (m : Validate.LengthMap) (j : Validate.Judgement)
    (st2 : Validate.LengthMap × Bool)
    (h : Validate.checkRow forms hs ha (m, false) j = Except.ok st2) :
    st2.2 = false := by
  obtain ⟨a, b⟩ := st2
  unfold Validate.checkRow at h
  split at h
  · split at h
    · simp at h
      show b = false
      exact h.2
    · dsimp only at h
      split at h
      · exact absurd h (by simp)
      · simp only [ite_self] at h
        exact alignStage_false forms ha j _ m a b h
  · dsimp only at h
    exact alignStage_false forms ha j _ m a b h

end Lexedata

namespace Lexedata

/-! # Claim theorems -/

/-- C1 (counterexample): the claim states that the cell
`<jaoca> (apartar-se, separar-se){2}` parses to a record with orthographic
field `jaoca`, i.e. with the delimiting brackets stripped.  It does not: the
parser records `mymatch.group(2)`, which keeps the delimiters, so the
orthographic field is `<jaoca>`, not `jaoca`. -/
theorem c1_counterexample :
    (parse ("<jaoca> (apartar-se, separar-se){2}".data)).map (fun f => f.orthographic) ≠
      [some ("jaoca".data)] := by decide

/-- C1 (amended): the cell `<jaoca> (apartar-se, separar-se){2}` parses to
exactly one record with orthographic `<jaoca>`, comment
`(apartar-se, separar-se)` and source `{2}` — the matched spans are recorded
with their delimiting brackets and braces kept, not stripped. -/
theorem c1_amended :
    parse ("<jaoca> (apartar-se, separar-se){2}".data) =
      [⟨some [], some [], some ("<jaoca>".data),
        some ("(apartar-se, separar-se)".data), some ("{2}".data), some []⟩] := by
  decide

/-- C8: the literal form-string `...` yields exactly one record in which all
six fields are null — it is neither skipped nor rejected as empty. -/
theorem c8_ellipsis :
    parse ("...".data) = [⟨none, none, none, none, none, none⟩] := by decide

end Lexedata

namespace Lexedata

/-- C2 (code bug): the claim — and the validator's own design, which logs
the bad slice and clears the flag — requires a row with an invalid segment
slice to be counted as a violation and its remaining checks skipped.  The
code does not skip: with an alignment column present, a slice index at or
beyond the segment count reaches
`" ".join(form_segments[i] for i in included_segments)` and raises
IndexError, aborting the whole validation (first conjunct).  Moreover, a row
with an empty declared slice is skipped without being counted: the overall
result stays true (second conjunct), although the claim requires it to
become inconsistent. -/
theorem c2_crash_eval :
    Validate.check_cognate_table (fun s => if s == "f" then ["a", "b"] else [])
        true true [⟨"f", "c", [(3, 3)], ["a", "b", "c"]⟩] =
      Except.error Validate.RowErr.indexError ∧
    Validate.check_cognate_table (fun s => if s == "f" then ["a", "b"] else [])
        true true [⟨"f", "c", [], ["a", "b"]⟩] = Except.ok true := by
  exact ⟨rfl, rfl⟩

/-- C3 (counterexample): the claim states that an alignment's length *after
removing gap symbols* is compared with the first-seen length of its cognate
set.  Here the first row records length 2 and the second row's alignment
`a -` has gap-free length 1, so the claim predicts a reported violation and
an inconsistent result; the code compares the raw length
(`len(judgement[c_alignment])`, which is 2 = 2) and reports nothing. -/
theorem c3_counterexample :
    Validate.check_cognate_table (fun s => if s == "f1" then ["a", "b"] else ["a"])
        false true
        [⟨"f1", "c", [], ["a", "b"]⟩, ⟨"f2", "c", [], ["a", "-"]⟩] =
      Except.ok true := by
  exact rfl

/-- C3 (amended): the validator compares the alignment's raw length — gap
symbols included — against the first-seen (raw) alignment length recorded
for the row's cognate set; a later row of the same cognate set whose raw
alignment length differs is reported as a violation (the flag comes back
false whenever the row returns normally). -/
theorem c3_amended (forms : String → List String) (j : Validate.Judgement)
    (included : List Nat) (m : Validate.LengthMap) (ok : Bool)
    (m2 : Validate.LengthMap) (ok2 : Bool)
    (hrec : Validate.lookupLengths m j.cognateset ≠ [])
    (hmem : j.alignment.length ∉ Validate.lookupLengths m j.cognateset)
    (hres : Validate.alignStage forms true j included m ok = Except.ok (m2, ok2)) :
    ok2 = false := by
  unfold Validate.alignStage at hres
  rw [if_pos rfl] at hres
  dsimp only at hres
  have hb : (Validate.lookupLengths m j.cognateset != [] &&
      !(Validate.lookupLengths m j.cognateset).contains j.alignment.length) = true := by
    simp [hrec, hmem]
  rw [hb] at hres
  split_ifs at hres <;> simp_all

/-- C3 (witness): a concrete instantiation of the amended claim — a cognate
set with recorded length 3 meets a row with raw alignment length 2 and the
returned flag is false. -/
theorem c3_witness :
    Validate.alignStage (fun _ => ["a"]) true ⟨"f", "c", [], ["x", "y"]⟩ [0]
        [("c", [3])] true = Except.ok ([("c", [3])], false) ∧ false = false :=
  ⟨rfl, c3_amended (fun _ => ["a"]) ⟨"f", "c", [], ["x", "y"]⟩ [0] [("c", [3])] true
    [("c", [3])] false (by decide) (by decide) rfl⟩

end Lexedata

namespace Lexedata

/-- Unfolding the Except monad bind on a constructor. -/
theorem except_bind_error {e : Type} {a b : Type} (err : e) (f : a → Except e b) :
    (Except.error err >>= f) = Except.error err := rfl

/-- Unfolding the Except monad bind on a successful value. -/
theorem except_bind_ok {e : Type} {a b : Type} (x : a) (f : a → Except e b) :
    (Except.ok x >>= f) = f x := rfl

/-- C5: for a judgement row that reaches the alignment check, if the
alignment with gap symbols removed, space-joined and trimmed, differs from
the space-joined, trimmed included segments of the referenced form, the
row's check returns a cleared flag (first conjunct); and once the flag is
cleared it stays cleared through the remaining rows of the loop, so the
overall result of `check_cognate_table` is false (second conjunct). -/
theorem c5_alignment_mismatch :
    (∀ (forms : String → List String) (j : Validate.Judgement) (included : List Nat)
        (m : Validate.LengthMap) (ok : Bool) (m2 : Validate.LengthMap) (ok2 : Bool),
      Validate.pyStrip (Validate.joinSpace (j.alignment.filter (fun c => c != "-"))) ≠
        Validate.pyStrip (Validate.joinSpace
          (included.map (fun i => (forms j.form).getD i ""))) →
      Validate.alignStage forms true j included m ok = Except.ok (m2, ok2) →
      ok2 = false) ∧
    (∀ (forms : String → List String) (hs ha : Bool) (rows : List Validate.Judgement)
        (st st2 : Validate.LengthMap × Bool),
      st.2 = false →
      List.foldlM (Validate.checkRow forms hs ha) st rows = Except.ok st2 →
      st2.2 = false) := by
  constructor
  · intro forms j included m ok m2 ok2 hne hres
    unfold Validate.alignStage at hres
    rw [if_pos rfl] at hres
    dsimp only at hres
    split_ifs at hres <;> simp_all
  · intro forms hs ha rows
    induction rows with
    | nil =>
      intro st st2 hf h
      have h2 : st = st2 := by simpa [List.foldlM, pure, Except.pure] using h
      rw [← h2]
      exact hf
    | cons j t ih =>
      intro st st2 hf h
      rw [List.foldlM_cons] at h
      cases hr : Validate.checkRow forms hs ha st j with
      | error e =>
        rw [hr, except_bind_error] at h
        exact absurd h (by simp)
      | ok st1 =>
        rw [hr, except_bind_ok] at h
        obtain ⟨m0, b0⟩ := st
        have hb0 : b0 = false := hf
        subst hb0
        have h1 : st1.2 = false := checkRow_false forms hs ha m0 j st1 hr
        exact ih st1 st2 h1 h

/-- C5 (witness): a concrete mismatching judgement — alignment `x` against
segments `a` — returns a cleared flag through the first conjunct. -/
theorem c5_witness :
    Validate.alignStage (fun _ => ["a"]) true ⟨"g", "d", [], ["x"]⟩ [0] [] true =
      Except.ok ([("d", [1])], false) ∧ false = false :=
  ⟨rfl, c5_alignment_mismatch.1 (fun _ => ["a"]) ⟨"g", "d", [], ["x"]⟩ [0] [] true
    [("d", [1])] false (by decide) rfl⟩

end Lexedata

namespace Lexedata

/-- C6 (counterexample): the claim states that a `#...#` span is removed
also when it starts at the very beginning of the cell text.  It is not:
`ignore_pattern` is `^(.+)#.+?#(.*)$`, whose group 1 demands at least one
character before the opening `#`, so the cell `#x#<a>` — whose only
`#`-pair sits at the start — is left entirely unchanged. -/
theorem c6_counterexample :
    stripIgnore ("#x#<a>".data) = "#x#<a>".data := by decide

/-- C6 (amended): before splitting, the parser repeatedly removes `#...#`
spans with non-empty content that are preceded by at least one character
(greedily taking the right-most removable pair each round), until the
ignore pattern no longer matches; a span whose opening `#` is the first
character of the text is not removable.  The loop does reach that fixed
point: no removable pair remains in its output. -/
theorem c6_amended (s : Str) : ignoreStep (stripIgnore s) = none :=
  stripIgnoreGo_fix s.length s (Nat.le_refl _)

/-- C7 (counterexample): the claim states that an empty accumulated comment
is left empty.  It is not: `bracket_checker` rejects the empty string, so
`parse_form` wraps the empty comment of the plain form-string `<a>` and
returns the description `()`. -/
theorem c7_counterexample :
    parse_form ("<a>".data) =
      Except.ok ⟨none, none, some ("<a>".data), "()".data, none⟩ := by rfl

/-- C7 (amended): after all matchers have run, `CellParserLexical` wraps the
accumulated comment in one pair of parentheses exactly when its counts of
`(` and `)` differ or it is empty — so an empty comment becomes `()` rather
than staying empty, and a non-empty comment is left unchanged precisely when
the two counts agree, even when it is not enclosed by a single matching
pair.  (The duplicate `CellParserLD` extractor does leave an empty comment
empty, wrapping a non-empty one unless it starts with `(` and ends with
`)`.) -/
theorem c7_amended (d : Str) :
    (d = [] → encloseDescription d = "()".data ∧ encloseDescriptionLD d = []) ∧
    (d ≠ [] → (encloseDescription d = d ↔ d.count '(' = d.count ')')) := by
  constructor
  · intro h
    subst h
    exact ⟨rfl, rfl⟩
  · intro hne
    unfold encloseDescription bracket_checker
    rw [if_neg hne]
    by_cases hc : d.count '(' = d.count ')'
    · simp [hc]
    · have hb : (d.count '(' == d.count ')') = false := by simp [hc]
      rw [hb]
      simp only [Bool.false_eq_true, if_false]
      constructor
      · intro heq
        have hlen := congrArg List.length heq
        simp at hlen
        omega
      · intro hcc
        exact absurd hcc hc

/-- C7 (witness): the empty comment is wrapped to `()` by the
`CellParserLexical` enclosure and left empty by the `CellParserLD` one. -/
theorem c7_witness :
    encloseDescription [] = "()".data ∧ encloseDescriptionLD [] = [] :=
  (c7_amended []).1 rfl

end Lexedata

namespace Lexedata

/-- C9 (counterexample): the claim states that every field text free of `~`
and `%` is returned unchanged with nothing added to the variants.  Not
every: a marker-free field containing the illegal transcription symbol `;`
raises SeparatorCellError instead of being returned. -/
theorem c9_counterexample :
    variants_separator [] ("a;b".data) =
      Except.error (FormErr.separator ("a;b".data)) := by rfl

/-- C9 (amended): every field text that contains neither `~` nor `%` nor
the illegal symbol `;` is returned by the variant splitter unchanged —
character for character, spaces included — and the variants accumulator is
returned exactly as it was given. -/
theorem c9_amended (acc : List Str) (s : Str)
    (h1 : s.any (fun c => c == '~') = false)
    (h2 : s.any (fun c => c == '%') = false)
    (h3 : s.any (fun c => c == ';') = false) :
    variants_separator acc s = Except.ok (s, acc) := by
  simp [variants_separator, h1, h2, h3]

/-- C9 (witness): the marker-free field `a b` is returned unchanged, spaces
included, with the accumulator untouched. -/
theorem c9_witness :
    variants_separator [] ("a b".data) = Except.ok ("a b".data, []) :=
  c9_amended [] ("a b".data) (by decide) (by decide) (by decide)

/-- C10: scanning for a variant marker, any character reached while no
bracket is open that is not a bracket-opening character (`<`, `[`, `/`),
not a bracket-closing character (`>`, `]`, `/`) and not the marker itself
is silently dropped: the scanner's fold is unchanged by deleting it, so
such text outside every bracket pair reaches neither the primary value nor
any variant split out of the scanner's output by `variants_separator`
(which runs this scanner on the space-stripped field and splits on the
marker). -/
theorem c10_outside_text_dropped (symbol : Char) (st : ScanState) (c : Char)
    (rest : Str) (hopen : st.isOpen = false)
    (h1 : isOpener c = false) (h2 : isCloserVal c = false)
    (h3 : (c == symbol) = false) :
    List.foldl (scanStep symbol) st (c :: rest) =
      List.foldl (scanStep symbol) st rest := by
  have hstep : scanStep symbol st c = st := by
    simp [scanStep, h1, h2, h3, hopen]
  rw [List.foldl_cons, hstep]

/-- C10 (witness): the character `x`, standing outside any bracket while
scanning for `~`, leaves the scanner fold unchanged. -/
theorem c10_witness :
    List.foldl (scanStep '~') ⟨false, '\x00', ("a".data)⟩ ('x' :: ("<b>".data)) =
      List.foldl (scanStep '~') ⟨false, '\x00', ("a".data)⟩ ("<b>".data) :=
  c10_outside_text_dropped '~' ⟨false, '\x00', ("a".data)⟩ 'x' ("<b>".data)
    rfl (by decide) (by decide) (by decide)

/-- C4: an error raised while parsing one form-string (empty form,
incomplete parse, malformed comment, illegal variant separator — every
exception type the body can raise is caught by the orchestrator's except
clauses) removes exactly that form-string from the yielded sequence: the
loop continues with the remaining form-strings and no exception escapes,
the caller only observing a shorter output sequence. -/
theorem c4_errors_skipped (pre : List Str) (bad : Str) (post : List Str)
    (h : (parse_value_checked bad).toOption = none) :
    parseElements (pre ++ bad :: post) = parseElements pre ++ parseElements post := by
  have hb : parseElements (bad :: post) = parseElements post := by
    cases hv : parse_value_checked bad with
    | ok f => rw [hv] at h; simp [Except.toOption] at h
    | error err => simp [parseElements, hv]
  have hsplit : parseElements (pre ++ bad :: post) =
      pre.foldr (fun e acc =>
        match parse_value_checked e with
        | Except.ok f => f :: acc
        | Except.error _ => acc) (parseElements (bad :: post)) := by
    simp [parseElements, List.foldr_append]
  rw [hsplit, parseElements_foldr, hb]

/-- C4 (witness): the middle form-string is empty and raises the
Empty-Excel-Cell error; the cell's output is the two good records, in
order. -/
theorem c4_witness :
    (parse_value_checked ("".data)).toOption = none ∧
      parseElements [("<a>".data), ("".data), ("<b>".data)] =
        parseElements [("<a>".data)] ++ parseElements [("<b>".data)] :=
  ⟨by decide, c4_errors_skipped [("<a>".data)] ("".data) [("<b>".data)] (by decide)⟩

end Lexedata
